import Mathlib

/-!
Verification of the reactive/snapshot relation-instance layer of the
inexor-rgf-core-model repository.

The embedding below translates the Rust sources
(`relation_instance.rs`, `reactive_relation_instance.rs`,
`entity_type.rs`, `relation_type.rs`) into Lean.  JSON values
(`serde_json::Value`) are modelled by the inductive `Value`; hash maps
(`std::collections::HashMap`, `dashmap::DashMap`) are modelled as
association lists with last-writer-wins insertion, matching `collect()`
semantics; `dashmap::DashSet` is modelled as a duplicate-free list;
`uuid::Uuid::new_v4()` (a fresh random identity) is modelled by
threading a supply counter and handing out successive values.
Rust functions that can panic (`unwrap`) return `Option`, `none`
standing for the panic.
-/

namespace Inexor

/-- UUIDs modelled as natural numbers; `Uuid::new_v4()` becomes drawing the
next value from a supply counter. -/
abbrev Uuid := Nat

/-- Model of `serde_json::Value`: booleans, numbers, strings, arrays and
objects (numbers abstracted to integers; the claims never coerce values). -/
inductive Value where
  | null : Value
  | bool (b : Bool) : Value
  | num (n : Int) : Value
  | str (s : String) : Value
  | arr (l : List Value) : Value
  | obj (l : List (String × Value)) : Value

/-- Association-list model of a `HashMap String β` / `DashMap String β`.
Lookup finds the first matching key; `insert` replaces an existing binding
in place or appends, so maps built from the empty map have distinct keys. -/
abbrev Map (β : Type) := List (String × β)

namespace Map

/-- `HashMap::get` / `DashMap::get`. -/
def lookup (m : Map β) (k : String) : Option β :=
  match m with
  | [] => none
  | (k', v) :: rest => if k' = k then some v else lookup rest k

/-- `HashMap::insert` / `DashMap::insert`: replace in place or append. -/
def insert (m : Map β) (k : String) (v : β) : Map β :=
  match m with
  | [] => [(k, v)]
  | (k', v') :: rest => if k' = k then (k, v) :: rest else (k', v') :: insert rest k v

/-- `Iterator::collect::<HashMap<_,_>>()`: successive inserts into an empty
map, later pairs overwriting earlier ones. -/
def collect (l : List (String × β)) : Map β :=
  l.foldl (fun m p => m.insert p.1 p.2) []

/-- Lookup with precedence for later entries: what a sequence of inserts of
the list's pairs into an empty map produces. -/
def lookupLast (l : List (String × β)) (k : String) : Option β :=
  match l with
  | [] => none
  | (k', v) :: rest => (lookupLast rest k).or (if k' = k then some v else none)

/-- Distinct-keys invariant, phrased through `lookup`. -/
def KeysOk : Map β → Prop
  | [] => True
  | (k, _) :: rest => lookup rest k = none ∧ KeysOk rest

end Map

/-- Duplicate-free list model of `dashmap::DashSet<String>`. -/
abbrev DSet := List String

namespace DSet

/-- `DashSet::insert`: no-op when present, append otherwise. -/
def insert (s : DSet) (x : String) : DSet :=
  if x ∈ s then s else s ++ [x]

/-- `DashSet::remove`. -/
def remove (s : DSet) (x : String) : DSet :=
  s.filter (fun y => y ≠ x)

/-- `DashSet::contains`. -/
def mem (s : DSet) (x : String) : Bool :=
  s.contains x

end DSet

/-- Modelled from the spec: the external graph-identifier type
(indradb `Identifier`, also named `Type` in `relation_instance.rs`): a
validated token wrapping its string form; `to_string`/`.0` give back the
string. -/
structure Identifier where
  s : String
deriving DecidableEq

/-- Modelled from the spec: the character class the external identifier
parser accepts (alphanumeric plus `-` and `_`). -/
def identifierChar (c : Char) : Bool :=
  c.isAlphanum || c = '-' || c = '_'

/-- Modelled from the spec: the external identifier parser
(`Type::from_str` / `Identifier::new`). Per the spec, parsing yields an
absent result "when the type name is empty or contains characters the
identifier parser rejects"; otherwise it succeeds with the token wrapping
the input string. -/
def Identifier.parse (s : String) : Option Identifier :=
  if s ≠ "" && s.data.all identifierChar then some ⟨s⟩ else none

/-- indradb `EdgeKey`: outbound vertex id, edge type, inbound vertex id. -/
structure EdgeKey where
  outbound_id : Uuid
  t : Identifier
  inbound_id : Uuid
deriving DecidableEq

/-- indradb `Edge` (only the key is used by this repository). -/
structure Edge where
  key : EdgeKey

/-- indradb `NamedProperty`: a property name with its JSON value. -/
structure NamedProperty where
  name : String
  value : Value

/-- indradb `EdgeProperties`: an edge plus its list of named properties. -/
structure EdgeProperties where
  edge : Edge
  props : List NamedProperty

/-- `RelationInstance` (snapshot form), `relation_instance.rs` lines 20-46. -/
structure RelationInstance where
  outbound_id : Uuid
  type_name : String
  inbound_id : Uuid
  description : String
  properties : Map Value

namespace RelationInstance

/-- `RelationInstance::new`, `relation_instance.rs` lines 50-63. -/
def new (outbound_id : Uuid) (type_name : String) (inbound_id : Uuid)
    (properties : Map Value) : RelationInstance :=
  { outbound_id, type_name, inbound_id, description := "", properties }

/-- `RelationInstance::get_key`, `relation_instance.rs` lines 65-71:
parse the type name; on success return the composite edge key, else `None`. -/
def get_key (r : RelationInstance) : Option EdgeKey :=
  match Identifier.parse r.type_name with
  | some t => some ⟨r.outbound_id, t, r.inbound_id⟩
  | none => none

/-- `From<EdgeProperties> for RelationInstance`, lines 74-90: endpoints and
type taken from the edge key, properties collected verbatim. -/
def fromEdgeProperties (p : EdgeProperties) : RelationInstance :=
  { outbound_id := p.edge.key.outbound_id
    type_name := p.edge.key.t.s
    inbound_id := p.edge.key.inbound_id
    description := ""
    properties := Map.collect (p.props.map (fun np => (np.name, np.value))) }

/-- `PropertyInstanceGetter::get` for `RelationInstance`, lines 93-95. -/
def get (r : RelationInstance) (property_name : String) : Option Value :=
  r.properties.lookup property_name

/-- `MutablePropertyInstanceSetter::set` for `RelationInstance`, lines
118-123: `self.properties.get_mut(&name).unwrap()` panics when the property
is absent (modelled as `none`); otherwise the binding is overwritten. -/
def set (r : RelationInstance) (property_name : String) (value : Value) :
    Option RelationInstance :=
  match r.properties.lookup property_name with
  | none => none
  | some _ => some { r with properties := r.properties.insert property_name value }

end RelationInstance

/-- Modelled from the spec: `ReactivePropertyInstance` (file not under
`src/`), "a named, identity-bearing cell wrapping a value, supporting
get/set (with and without propagation)". Only the identity, name and the
cached value are observable at this layer; stream propagation has no effect
on the stored value. -/
structure ReactivePropertyInstance where
  id : Uuid
  name : String
  value : Value

namespace ReactivePropertyInstance

/-- Modelled from the spec: `ReactivePropertyInstance::new(id, name, value)`. -/
def new (id : Uuid) (name : String) (value : Value) : ReactivePropertyInstance :=
  { id, name, value }

/-- Modelled from the spec: reading the cell's cached value. -/
def get (c : ReactivePropertyInstance) : Value := c.value

/-- Modelled from the spec: writing the cell's value with propagation. -/
def set (c : ReactivePropertyInstance) (v : Value) : ReactivePropertyInstance :=
  { c with value := v }

/-- Modelled from the spec: writing the cell's value without propagation;
the cached value changes exactly as with `set`. -/
def set_no_propagate (c : ReactivePropertyInstance) (v : Value) :
    ReactivePropertyInstance :=
  { c with value := v }

end ReactivePropertyInstance

/-- Modelled from the spec: `ReactiveEntityInstance` (file not under
`src/`); only its identity `id` is used by the relation-instance layer. -/
structure ReactiveEntityInstance where
  id : Uuid

/-- `ReactiveRelationInstance`, `reactive_relation_instance.rs` lines 39-60.
`Arc` sharing is immaterial to the properties proved here, so endpoints are
stored directly. -/
structure ReactiveRelationInstance where
  outbound : ReactiveEntityInstance
  type_name : String
  inbound : ReactiveEntityInstance
  description : String
  properties : Map ReactivePropertyInstance
  components : DSet
  behaviours : DSet

/-- The shared property-construction pattern of the three constructors in
`reactive_relation_instance.rs`: each (name, value) pair becomes
`(name, ReactivePropertyInstance::new(Uuid::new_v4(), name, value))` and the
pairs are collected into the map. The UUID supply counter `n` models
`Uuid::new_v4()`. -/
def buildCellsAux (acc : Map ReactivePropertyInstance) :
    List (String × Value) → Nat → Map ReactivePropertyInstance × Nat
  | [], n => (acc, n)
  | (k, v) :: rest, n =>
      buildCellsAux (acc.insert k (ReactivePropertyInstance.new n k v)) rest (n + 1)

def buildCells (l : List (String × Value)) (n : Nat) :
    Map ReactivePropertyInstance × Nat :=
  buildCellsAux [] l n

namespace ReactiveRelationInstance

/-- `ReactiveRelationInstance::from`, `reactive_relation_instance.rs` lines
64-89 (`from` is a Lean keyword, hence the name the source's TODO suggests):
type name from the edge key, each named property wrapped in a fresh cell,
components and behaviours empty. -/
def from_properties (outbound inbound : ReactiveEntityInstance)
    (properties : EdgeProperties) (n : Nat) : ReactiveRelationInstance × Nat :=
  let type_name := properties.edge.key.t.s
  let built := buildCells (properties.props.map (fun np => (np.name, np.value))) n
  ({ outbound, type_name, inbound, description := ""
     properties := built.1, components := [], behaviours := [] }, built.2)

/-- `ReactiveRelationInstance::from_instance`, lines 91-106: type name,
description and properties taken from the snapshot. -/
def from_instance (outbound inbound : ReactiveEntityInstance)
    (inst : RelationInstance) (n : Nat) : ReactiveRelationInstance × Nat :=
  let built := buildCells inst.properties n
  ({ outbound, type_name := inst.type_name, inbound
     description := inst.description
     properties := built.1, components := [], behaviours := [] }, built.2)

/-- `ReactiveRelationInstance::create_with_properties`, lines 110-138. -/
def create_with_properties (outbound : ReactiveEntityInstance)
    (type_name : String) (inbound : ReactiveEntityInstance)
    (properties : Map Value) (n : Nat) : ReactiveRelationInstance × Nat :=
  let built := buildCells properties n
  ({ outbound, type_name, inbound, description := ""
     properties := built.1, components := [], behaviours := [] }, built.2)

/-- `ReactiveRelationInstance::get_key`, lines 140-144. -/
def get_key (r : ReactiveRelationInstance) : Option EdgeKey :=
  (Identifier.parse r.type_name).map (fun t => ⟨r.outbound.id, t, r.inbound.id⟩)

/-- `ReactiveRelationInstance::add_property`, lines 152-158: insert a fresh
cell only when no property of that name exists. -/
def add_property (r : ReactiveRelationInstance) (name : String) (value : Value)
    (n : Nat) : ReactiveRelationInstance × Nat :=
  if (r.properties.lookup name).isSome then (r, n)
  else ({ r with properties :=
            r.properties.insert name (ReactivePropertyInstance.new n name value) },
        n + 1)

/-- `ReactiveRelationInstance::add_component`, lines 160-162. -/
def add_component (r : ReactiveRelationInstance) (c : String) :
    ReactiveRelationInstance :=
  { r with components := r.components.insert c }

/-- `ReactiveRelationInstance::remove_component`, lines 164-166. -/
def remove_component (r : ReactiveRelationInstance) (c : String) :
    ReactiveRelationInstance :=
  { r with components := r.components.remove c }

/-- `ReactiveRelationInstance::is_a`, lines 169-171. -/
def is_a (r : ReactiveRelationInstance) (c : String) : Bool :=
  r.components.mem c

/-- `PropertyInstanceGetter::get` for `ReactiveRelationInstance`,
lines 205-207. -/
def get (r : ReactiveRelationInstance) (property_name : String) : Option Value :=
  (r.properties.lookup property_name).map ReactivePropertyInstance.get

/-- `PropertyInstanceSetter::set` for `ReactiveRelationInstance`, lines
239-243: if a cell of that name exists delegate the write to it, otherwise
do nothing. -/
def set (r : ReactiveRelationInstance) (property_name : String) (value : Value) :
    ReactiveRelationInstance :=
  match r.properties.lookup property_name with
  | some inst =>
      { r with properties := r.properties.insert property_name (inst.set value) }
  | none => r

/-- `PropertyInstanceSetter::set_no_propagate`, lines 245-249. -/
def set_no_propagate (r : ReactiveRelationInstance) (property_name : String)
    (value : Value) : ReactiveRelationInstance :=
  match r.properties.lookup property_name with
  | some inst =>
      { r with properties :=
          r.properties.insert property_name (inst.set_no_propagate value) }
  | none => r

end ReactiveRelationInstance

/-- `From<Arc<ReactiveRelationInstance>> for RelationInstance`,
`reactive_relation_instance.rs` lines 187-202: read every cell's current
value, pair it with the cell's map key, and collect. -/
def RelationInstance.fromReactive (inst : ReactiveRelationInstance) :
    RelationInstance :=
  { outbound_id := inst.outbound.id
    type_name := inst.type_name
    inbound_id := inst.inbound.id
    description := inst.description
    properties :=
      Map.collect (inst.properties.map
        (fun p => (p.1, ReactivePropertyInstance.get p.2))) }

/-- Modelled from the spec: `PropertyType` (file not under `src/`), a
declared property type; only its name is relevant here. -/
structure PropertyType where
  name : String

/-- Modelled from the spec: `Extension` (file not under `src/`), named
extension metadata; only its name is relevant here. -/
structure Extension where
  name : String

/-- `EntityType`, `entity_type.rs` lines 10-39. -/
structure EntityType where
  name : String
  group : String
  description : String
  components : List String
  properties : List PropertyType
  extensions : List Extension
  t : Identifier

/-- `EntityType::new`, `entity_type.rs` lines 42-61:
`Identifier::from_str(name).unwrap()` panics (modelled as `none`) when the
name does not parse; otherwise the derived identifier is stored alongside
the fields. -/
def EntityType.new (name group description : String) (components : List String)
    (properties : List PropertyType) (extensions : List Extension) :
    Option EntityType :=
  match Identifier.parse name with
  | none => none
  | some t => some { name, group, description, components, properties, extensions, t }

/-- `RelationType`, `relation_type.rs` lines 13-53. -/
structure RelationType where
  outbound_type : String
  type_name : String
  full_name : String
  inbound_type : String
  group : String
  description : String
  components : List String
  properties : List PropertyType
  extensions : List Extension
  t : Identifier

/-- `RelationType::new`, `relation_type.rs` lines 57-81: panics (modelled as
`none`) when the type name does not parse; `full_name` is set to a copy of
`type_name`. -/
def RelationType.new (outbound_type type_name inbound_type group description : String)
    (components : List String) (properties : List PropertyType)
    (extensions : List Extension) : Option RelationType :=
  match Identifier.parse type_name with
  | none => none
  | some t =>
      some { outbound_type, full_name := type_name, type_name, inbound_type
             group, description, components, properties, extensions, t }

/-! ### Structured decoding of `RelationInstance`

`#[derive(Deserialize)]` on `RelationInstance` with
`#[serde(alias = "type")]` on `type_name` and `#[serde(default)]` on
`description` and `properties` (`relation_instance.rs` lines 20-46).  The
serde field visitor is embedded directly: fields are consumed in input
order, a duplicate field is an error, unknown fields are ignored, and after
all fields are read the required fields must be present while `description`
and `properties` fall back to their defaults. -/

/-- Modelled from the spec: UUID parsing from its JSON string form
(external `uuid` crate); abstracted to an injective parse of the model's
decimal string form of a UUID. -/
def uuidFromString (s : String) : Option Uuid :=
  if s ≠ "" && s.data.all Char.isDigit then
    some (s.data.foldl (fun n c => 10 * n + (c.toNat - 48)) 0)
  else none

/-- The partial field record built up by the serde visitor while decoding a
`RelationInstance`. -/
structure DecodeState where
  outbound_id : Option Uuid
  type_name : Option String
  inbound_id : Option Uuid
  description : Option String
  properties : Option (Map Value)

def DecodeState.init : DecodeState :=
  { outbound_id := none, type_name := none, inbound_id := none
    description := none, properties := none }

/-- One serde visitor step for a single input field.  `type_name` accepts
both the `"type_name"` spelling and the `"type"` alias; seeing a field that
was already filled is a duplicate-field error (`none`); unknown keys are
skipped. -/
def decodeStep (k : String) (v : Value) (st : DecodeState) : Option DecodeState :=
  if k = "outbound_id" then
    match st.outbound_id, v with
    | some _, _ => none
    | none, Value.str s =>
        match uuidFromString s with
        | some u => some { st with outbound_id := some u }
        | none => none
    | none, _ => none
  else if k = "type" ∨ k = "type_name" then
    match st.type_name, v with
    | some _, _ => none
    | none, Value.str s => some { st with type_name := some s }
    | none, _ => none
  else if k = "inbound_id" then
    match st.inbound_id, v with
    | some _, _ => none
    | none, Value.str s =>
        match uuidFromString s with
        | some u => some { st with inbound_id := some u }
        | none => none
    | none, _ => none
  else if k = "description" then
    match st.description, v with
    | some _, _ => none
    | none, Value.str s => some { st with description := some s }
    | none, _ => none
  else if k = "properties" then
    match st.properties, v with
    | some _, _ => none
    | none, Value.obj l => some { st with properties := some (Map.collect l) }
    | none, _ => none
  else some st

/-- The serde visitor: consume the input fields in order, failing as soon
as one step fails. -/
def decodeFields : List (String × Value) → DecodeState → Option DecodeState
  | [], st => some st
  | (k, v) :: rest, st =>
      match decodeStep k v st with
      | none => none
      | some st' => decodeFields rest st'

/-- Structured decoding of a `RelationInstance` from a JSON object:
visit every field, then require `outbound_id`, the type name and
`inbound_id`, defaulting `description` to `""` (`String::new`) and
`properties` to the empty map (`HashMap::new`). -/
def RelationInstance.decode (l : List (String × Value)) : Option RelationInstance :=
  match decodeFields l DecodeState.init with
  | none => none
  | some st =>
      match st.outbound_id, st.type_name, st.inbound_id with
      | some o, some tn, some i =>
          some { outbound_id := o, type_name := tn, inbound_id := i
                 description := st.description.getD ""
                 properties := st.properties.getD [] }
      | _, _, _ => none

namespace Map

theorem lookup_insert (m : Map β) (k k' : String) (v : β) :
    lookup (insert m k v) k' = if k = k' then some v else lookup m k' := by
  induction m with
  | nil => simp only [insert, lookup]
  | cons hd tl ih =>
      obtain ⟨k₀, v₀⟩ := hd
      by_cases h₀ : k₀ = k
      · subst h₀
        by_cases h₁ : k₀ = k'
        · subst h₁; simp [insert, lookup]
        · simp [insert, lookup, h₁]
      · by_cases h₁ : k₀ = k'
        · subst h₁
          have h₂ : ¬ k = k₀ := fun h => h₀ h.symm
          simp [insert, lookup, h₀, h₂]
        · simp [insert, lookup, h₀, h₁, ih]

theorem lookup_map_val (m : Map β) (f : β → γ) (k : String) :
    lookup (m.map (fun p => (p.1, f p.2))) k = (lookup m k).map f := by
  induction m with
  | nil => simp [lookup]
  | cons hd tl ih =>
      obtain ⟨k₀, v₀⟩ := hd
      by_cases h : k₀ = k <;> simp [lookup, h, ih]

/-- Entries of the map after an insert: the inserted pair or an old entry. -/
theorem mem_insert {m : Map β} {p : String × β} (k : String) (v : β)
    (h : p ∈ insert m k v) : p = (k, v) ∨ p ∈ m := by
  induction m with
  | nil => simp [insert] at h; simp [h]
  | cons hd tl ih =>
      obtain ⟨k₀, v₀⟩ := hd
      by_cases hk : k₀ = k
      · subst hk
        simp [insert] at h
        rcases h with h | h
        · left; simp [h]
        · right; simp [h]
      · simp [insert, hk] at h
        rcases h with h | h
        · right; simp [h]
        · rcases ih h with h' | h'
          · left; exact h'
          · right; simp [h']

/-- Inserting preserves distinctness of keys. -/
theorem keysOk_insert {m : Map β} (k : String) (v : β)
    (h : KeysOk m) : KeysOk (insert m k v) := by
  induction m with
  | nil => simp [insert, KeysOk, lookup]
  | cons hd tl ih =>
      obtain ⟨k₀, v₀⟩ := hd
      obtain ⟨h₁, h₂⟩ := h
      by_cases hk : k₀ = k
      · subst hk
        simpa [insert, KeysOk] using ⟨h₁, h₂⟩
      · have hlk : lookup (insert tl k v) k₀ = none := by
          rw [lookup_insert]
          have h₃ : ¬ k = k₀ := fun h => hk h.symm
          simp [h₃, h₁]
        show KeysOk (insert ((k₀, v₀) :: tl) k v)
        simp only [insert, if_neg hk]
        exact ⟨hlk, ih h₂⟩

/-- Folding inserts over a list looks up as `lookupLast` of the list,
falling back to the accumulator. -/
theorem lookup_foldl_insert (l : List (String × β)) (acc : Map β) (k : String) :
    lookup (l.foldl (fun m p => m.insert p.1 p.2) acc) k =
      (lookupLast l k).or (lookup acc k) := by
  induction l generalizing acc with
  | nil => simp [lookupLast]
  | cons hd tl ih =>
      obtain ⟨k₀, v₀⟩ := hd
      simp only [List.foldl, lookupLast]
      rw [ih, lookup_insert, Option.or_assoc]
      by_cases hk : k₀ = k <;> simp [hk]

theorem lookup_collect (l : List (String × β)) (k : String) :
    lookup (collect l) k = lookupLast l k := by
  rw [collect, lookup_foldl_insert]
  simp [lookup]

theorem lookup_eq_none_iff_lookupLast (l : List (String × β)) (k : String) :
    lookup l k = none ↔ lookupLast l k = none := by
  induction l with
  | nil => simp [lookup, lookupLast]
  | cons hd tl ih =>
      obtain ⟨k₀, v₀⟩ := hd
      by_cases hk : k₀ = k <;> simp [lookup, lookupLast, hk, ih]

/-- On maps with distinct keys the two lookups agree, so `collect` of such a
map's entries is lookup-equivalent to the map itself. -/
theorem lookupLast_eq_lookup_of_keysOk (l : List (String × β))
    (h : KeysOk l) (k : String) : lookupLast l k = lookup l k := by
  induction l with
  | nil => simp [lookup, lookupLast]
  | cons hd tl ih =>
      obtain ⟨k₀, v₀⟩ := hd
      obtain ⟨h₁, h₂⟩ := h
      by_cases hk : k₀ = k
      · subst hk
        have := (lookup_eq_none_iff_lookupLast tl k₀).mp h₁
        simp [lookup, lookupLast, this]
      · simp [lookup, lookupLast, hk, ih h₂]

/-- Inserting an absent key grows the map by exactly one binding. -/
theorem length_insert_of_absent (m : Map β) (k : String) (v : β)
    (h : lookup m k = none) : (insert m k v).length = m.length + 1 := by
  induction m with
  | nil => simp [insert]
  | cons hd tl ih =>
      obtain ⟨k₀, v₀⟩ := hd
      by_cases hk : k₀ = k
      · simp [lookup, hk] at h
      · simp only [lookup, if_neg hk] at h
        simp [insert, hk, ih h]

/-- `KeysOk` is stable under mapping the values. -/
theorem keysOk_map_val (m : Map β) (f : β → γ) (h : KeysOk m) :
    KeysOk (m.map (fun p => (p.1, f p.2))) := by
  induction m with
  | nil => simp [KeysOk]
  | cons hd tl ih =>
      obtain ⟨k₀, v₀⟩ := hd
      obtain ⟨h₁, h₂⟩ := h
      refine ⟨?_, ih h₂⟩
      rw [lookup_map_val, h₁]
      rfl

end Map

/-! ### Lemmas about the shared cell-construction pattern -/

/-- Reading built cells through `get` agrees with collecting the raw
name/value pairs, relative to pointwise-related accumulators. -/
theorem buildCellsAux_lookup_value (l : List (String × Value)) :
    ∀ (acc₁ : Map ReactivePropertyInstance) (acc₂ : Map Value) (n : Nat),
    (∀ k, (acc₁.lookup k).map ReactivePropertyInstance.get = acc₂.lookup k) →
    ∀ k, ((buildCellsAux acc₁ l n).1.lookup k).map ReactivePropertyInstance.get =
      (l.foldl (fun m p => m.insert p.1 p.2) acc₂).lookup k := by
  induction l with
  | nil => intro acc₁ acc₂ n h k; exact h k
  | cons hd tl ih =>
      intro acc₁ acc₂ n h k
      obtain ⟨k₀, v₀⟩ := hd
      refine ih _ _ _ (fun k' => ?_) k
      rw [Map.lookup_insert, Map.lookup_insert]
      by_cases hk : k₀ = k' <;> simp [hk, h k', ReactivePropertyInstance.get,
        ReactivePropertyInstance.new]

/-- Reading `buildCells` through `get` agrees with `Map.collect` of the
raw name/value pairs. -/
theorem buildCells_lookup_value (l : List (String × Value)) (n : Nat) (k : String) :
    ((buildCells l n).1.lookup k).map ReactivePropertyInstance.get =
      (Map.collect l).lookup k := by
  exact buildCellsAux_lookup_value l [] [] n (fun k' => rfl) k

/-- Every cell built is keyed by its own name. -/
theorem buildCellsAux_name (l : List (String × Value)) :
    ∀ (acc : Map ReactivePropertyInstance) (n : Nat),
    (∀ k c, acc.lookup k = some c → c.name = k) →
    ∀ k c, (buildCellsAux acc l n).1.lookup k = some c → c.name = k := by
  induction l with
  | nil => intro acc n h; exact h
  | cons hd tl ih =>
      intro acc n h
      obtain ⟨k₀, v₀⟩ := hd
      refine ih _ _ (fun k c hc => ?_)
      rw [Map.lookup_insert] at hc
      by_cases hk : k₀ = k
      · simp [hk] at hc
        simp [← hc, ReactivePropertyInstance.new, hk]
      · simp [hk] at hc
        exact h k c hc

/-- Cell construction preserves distinctness of the keys. -/
theorem buildCellsAux_keysOk (l : List (String × Value)) :
    ∀ (acc : Map ReactivePropertyInstance) (n : Nat),
    Map.KeysOk acc → Map.KeysOk (buildCellsAux acc l n).1 := by
  induction l with
  | nil => intro acc n h; exact h
  | cons hd tl ih =>
      intro acc n h
      obtain ⟨k₀, v₀⟩ := hd
      exact ih _ _ (Map.keysOk_insert _ _ h)

theorem buildCells_keysOk (l : List (String × Value)) (n : Nat) :
    Map.KeysOk (buildCells l n).1 :=
  buildCellsAux_keysOk l [] n trivial

/-- Inserting a cell whose identity differs from every identity in the map
keeps the identities pairwise distinct. -/
theorem nodup_ids_insert (m : Map ReactivePropertyInstance) (k : String)
    (c : ReactivePropertyInstance)
    (hfresh : ∀ p ∈ m, p.2.id ≠ c.id)
    (h : (m.map (fun p => p.2.id)).Nodup) :
    ((Map.insert m k c).map (fun p => p.2.id)).Nodup := by
  induction m with
  | nil => simp [Map.insert]
  | cons hd tl ih =>
      obtain ⟨k₀, v₀⟩ := hd
      simp only [List.map, List.nodup_cons] at h
      by_cases hk : k₀ = k
      · subst hk
        simp only [Map.insert, if_pos rfl, List.map, List.nodup_cons]
        refine ⟨fun hc => ?_, h.2⟩
        obtain ⟨p, hp, hpid⟩ := List.mem_map.mp hc
        exact hfresh p (by simp [hp]) hpid
      · simp only [Map.insert, if_neg hk, List.map, List.nodup_cons]
        constructor
        · intro hmem
          obtain ⟨p, hp, hpid⟩ := List.mem_map.mp hmem
          rcases Map.mem_insert k c hp with h' | h'
          · exact hfresh (k₀, v₀) (by simp) (by rw [← hpid, h'])
          · exact h.1 (List.mem_map.mpr ⟨p, h', hpid⟩)
        · exact ih (fun p hp => hfresh p (by simp [hp])) h.2

/-- Identity freshness: starting from an accumulator whose cell identities
lie in `[n₀, n)` and are pairwise distinct, building cells from supply `n`
yields a map whose identities lie in `[n₀, final supply)` and stay pairwise
distinct, and the supply only grows. -/
theorem buildCellsAux_ids (l : List (String × Value)) :
    ∀ (acc : Map ReactivePropertyInstance) (n₀ n : Nat), n₀ ≤ n →
    (∀ p ∈ acc, n₀ ≤ p.2.id ∧ p.2.id < n) →
    (acc.map (fun p => p.2.id)).Nodup →
    n ≤ (buildCellsAux acc l n).2 ∧
    (∀ p ∈ (buildCellsAux acc l n).1, n₀ ≤ p.2.id ∧ p.2.id < (buildCellsAux acc l n).2) ∧
    ((buildCellsAux acc l n).1.map (fun p => p.2.id)).Nodup := by
  induction l with
  | nil =>
      intro acc n₀ n _ hrange hnd
      exact ⟨Nat.le_refl n, hrange, hnd⟩
  | cons hd tl ih =>
      intro acc n₀ n hle hrange hnd
      obtain ⟨k₀, v₀⟩ := hd
      have hrange' : ∀ p ∈ Map.insert acc k₀ (ReactivePropertyInstance.new n k₀ v₀),
          n₀ ≤ p.2.id ∧ p.2.id < n + 1 := by
        intro p hp
        rcases Map.mem_insert k₀ _ hp with h' | h'
        · subst h'; exact ⟨hle, Nat.lt_succ_self n⟩
        · exact ⟨(hrange p h').1, Nat.lt_succ_of_lt (hrange p h').2⟩
      have hnd' := nodup_ids_insert acc k₀ (ReactivePropertyInstance.new n k₀ v₀)
        (fun p hp => Nat.ne_of_lt (hrange p hp).2) hnd
      have step := ih _ n₀ (n + 1) (Nat.le_succ_of_le hle) hrange' hnd'
      exact ⟨Nat.le_of_lt (Nat.lt_of_lt_of_le (Nat.lt_succ_self n) step.1),
        step.2.1, step.2.2⟩

/-- Identities of a freshly built cell map: pairwise distinct and drawn
from the supply interval. -/
theorem buildCells_ids (l : List (String × Value)) (n : Nat) :
    n ≤ (buildCells l n).2 ∧
    (∀ p ∈ (buildCells l n).1, n ≤ p.2.id ∧ p.2.id < (buildCells l n).2) ∧
    ((buildCells l n).1.map (fun p => p.2.id)).Nodup := by
  exact buildCellsAux_ids l [] n n (Nat.le_refl n) (by intro p hp; cases hp) (by simp)

/-- Converting a reactive instance with distinct property keys back to the
snapshot form reads each cell's current value. -/
theorem fromReactive_lookup (r : ReactiveRelationInstance)
    (h : Map.KeysOk r.properties) (k : String) :
    (RelationInstance.fromReactive r).properties.lookup k =
      (r.properties.lookup k).map ReactivePropertyInstance.get := by
  show (Map.collect (r.properties.map
      (fun p => (p.1, ReactivePropertyInstance.get p.2)))).lookup k = _
  rw [Map.lookup_collect, Map.lookupLast_eq_lookup_of_keysOk _
    (Map.keysOk_map_val _ _ h), Map.lookup_map_val]

/-! ### Claim theorems -/

/-- C1: constructing a `ReactiveRelationInstance` from an `EdgeProperties`
value and converting it back into a snapshot `RelationInstance` yields a
snapshot whose properties map contains exactly the original property names,
each mapped to its then-current value, whose type name equals the edge
key's type, and whose endpoint ids equal the original endpoint
identities. -/
theorem C1_edge_properties_round_trip (outb inb : ReactiveEntityInstance)
    (ep : EdgeProperties) (n : Nat)
    (ho : outb.id = ep.edge.key.outbound_id)
    (hi : inb.id = ep.edge.key.inbound_id) :
    (RelationInstance.fromReactive
      (ReactiveRelationInstance.from_properties outb inb ep n).1).type_name =
        ep.edge.key.t.s ∧
    (RelationInstance.fromReactive
      (ReactiveRelationInstance.from_properties outb inb ep n).1).outbound_id =
        ep.edge.key.outbound_id ∧
    (RelationInstance.fromReactive
      (ReactiveRelationInstance.from_properties outb inb ep n).1).inbound_id =
        ep.edge.key.inbound_id ∧
    ∀ k, (RelationInstance.fromReactive
      (ReactiveRelationInstance.from_properties outb inb ep n).1).properties.lookup k =
        (Map.collect (ep.props.map (fun np => (np.name, np.value)))).lookup k := by
  refine ⟨rfl, ho, hi, fun k => ?_⟩
  rw [fromReactive_lookup _
    (buildCells_keysOk (ep.props.map (fun np => (np.name, np.value))) n) k]
  exact buildCells_lookup_value _ n k

/-- C1 witness: the round trip evaluated on a concrete edge with one
property. -/
theorem C1_edge_properties_round_trip_witness :
    (RelationInstance.fromReactive
      (ReactiveRelationInstance.from_properties ⟨1⟩ ⟨2⟩
        ⟨⟨⟨1, ⟨"knows"⟩, 2⟩⟩, [⟨"weight", Value.num 5⟩]⟩ 0).1).type_name = "knows" ∧
    (RelationInstance.fromReactive
      (ReactiveRelationInstance.from_properties ⟨1⟩ ⟨2⟩
        ⟨⟨⟨1, ⟨"knows"⟩, 2⟩⟩, [⟨"weight", Value.num 5⟩]⟩ 0).1).outbound_id = 1 ∧
    (RelationInstance.fromReactive
      (ReactiveRelationInstance.from_properties ⟨1⟩ ⟨2⟩
        ⟨⟨⟨1, ⟨"knows"⟩, 2⟩⟩, [⟨"weight", Value.num 5⟩]⟩ 0).1).inbound_id = 2 ∧
    (RelationInstance.fromReactive
      (ReactiveRelationInstance.from_properties ⟨1⟩ ⟨2⟩
        ⟨⟨⟨1, ⟨"knows"⟩, 2⟩⟩, [⟨"weight", Value.num 5⟩]⟩ 0).1).properties.lookup
          "weight" =
      (Map.collect (([⟨"weight", Value.num 5⟩] :
        List NamedProperty).map (fun np => (np.name, np.value)))).lookup "weight" := by
  have h := C1_edge_properties_round_trip ⟨1⟩ ⟨2⟩
    ⟨⟨⟨1, ⟨"knows"⟩, 2⟩⟩, [⟨"weight", Value.num 5⟩]⟩ 0 rfl rfl
  exact ⟨h.1, h.2.1, h.2.2.1, h.2.2.2 "weight"⟩

/-- C3: on both relation-instance representations, `get_key` returns the
composite edge key (outbound id, parsed identifier, inbound id) exactly
when the type name parses as a graph identifier, and an absent result —
never failing — when it does not, in particular when the type name is
empty. -/
theorem C3_get_key_contract (r : RelationInstance) (q : ReactiveRelationInstance) :
    (∀ t, Identifier.parse r.type_name = some t →
        r.get_key = some ⟨r.outbound_id, t, r.inbound_id⟩) ∧
    (Identifier.parse r.type_name = none → r.get_key = none) ∧
    (r.type_name = "" → r.get_key = none) ∧
    (∀ t, Identifier.parse q.type_name = some t →
        q.get_key = some ⟨q.outbound.id, t, q.inbound.id⟩) ∧
    (Identifier.parse q.type_name = none → q.get_key = none) ∧
    (q.type_name = "" → q.get_key = none) := by
  refine ⟨fun t ht => ?_, fun h => ?_, fun h => ?_,
          fun t ht => ?_, fun h => ?_, fun h => ?_⟩
  · simp [RelationInstance.get_key, ht]
  · simp [RelationInstance.get_key, h]
  · simp [RelationInstance.get_key, h, Identifier.parse]
  · simp [ReactiveRelationInstance.get_key, ht]
  · simp [ReactiveRelationInstance.get_key, h]
  · simp [ReactiveRelationInstance.get_key, h, Identifier.parse]

/-- C3 witness: a valid type name yields the composite key, the empty type
name yields an absent result. -/
theorem C3_get_key_contract_witness :
    (RelationInstance.new 1 "knows" 2 []).get_key = some ⟨1, ⟨"knows"⟩, 2⟩ ∧
    ({ outbound := ⟨1⟩, type_name := "", inbound := ⟨2⟩, description := ""
       properties := [], components := [], behaviours := [] } :
        ReactiveRelationInstance).get_key = none := by
  refine ⟨(C3_get_key_contract (RelationInstance.new 1 "knows" 2 [])
      { outbound := ⟨1⟩, type_name := "", inbound := ⟨2⟩, description := ""
        properties := [], components := [], behaviours := [] }).1
      ⟨"knows"⟩ (by decide), ?_⟩
  exact (C3_get_key_contract (RelationInstance.new 1 "knows" 2 [])
      { outbound := ⟨1⟩, type_name := "", inbound := ⟨2⟩, description := ""
        properties := [], components := [], behaviours := [] }).2.2.2.2.2 rfl

/-- C4: the snapshot and the reactive `get_key` compute the derived edge
key identically: with equal type names they succeed on exactly the same
strings, and with equal endpoint ids as well they produce equal keys. -/
theorem C4_get_key_refinement (r : RelationInstance) (q : ReactiveRelationInstance)
    (h : r.type_name = q.type_name) :
    (r.get_key.isSome ↔ q.get_key.isSome) ∧
    (r.outbound_id = q.outbound.id → r.inbound_id = q.inbound.id →
      r.get_key = q.get_key) := by
  constructor
  · cases hp : Identifier.parse r.type_name with
    | some t =>
        simp [RelationInstance.get_key, ReactiveRelationInstance.get_key,
          hp, h ▸ hp]
    | none =>
        simp [RelationInstance.get_key, ReactiveRelationInstance.get_key,
          hp, h ▸ hp]
  · intro ho hi
    cases hp : Identifier.parse r.type_name with
    | some t =>
        simp [RelationInstance.get_key, ReactiveRelationInstance.get_key,
          hp, h ▸ hp, ho, hi]
    | none =>
        simp [RelationInstance.get_key, ReactiveRelationInstance.get_key,
          hp, h ▸ hp]

/-- C4 witness: both `get_key`s evaluated on matching concrete instances. -/
theorem C4_get_key_refinement_witness :
    ((RelationInstance.new 1 "knows" 2 []).get_key.isSome ↔
      ({ outbound := ⟨1⟩, type_name := "knows", inbound := ⟨2⟩, description := ""
         properties := [], components := [], behaviours := [] } :
          ReactiveRelationInstance).get_key.isSome) ∧
    (RelationInstance.new 1 "knows" 2 []).get_key =
      ({ outbound := ⟨1⟩, type_name := "knows", inbound := ⟨2⟩, description := ""
         properties := [], components := [], behaviours := [] } :
          ReactiveRelationInstance).get_key := by
  have h := C4_get_key_refinement (RelationInstance.new 1 "knows" 2 [])
    { outbound := ⟨1⟩, type_name := "knows", inbound := ⟨2⟩, description := ""
      properties := [], components := [], behaviours := [] } rfl
  exact ⟨h.1, h.2 rfl rfl⟩

/-- C8: component membership behaves as a set: after `add_component c`,
`is_a c` holds; after `remove_component c`, `is_a c` fails; adding twice
equals adding once; and removing an absent component leaves the set
unchanged. -/
theorem C8_component_set_ops (q : ReactiveRelationInstance) (c : String) :
    (q.add_component c).is_a c = true ∧
    (q.remove_component c).is_a c = false ∧
    ((q.add_component c).add_component c).components =
      (q.add_component c).components ∧
    (q.is_a c = false → (q.remove_component c).components = q.components) := by
  refine ⟨?_, ?_, ?_, fun h => ?_⟩
  · by_cases hc : c ∈ q.components <;>
      simp [ReactiveRelationInstance.add_component, ReactiveRelationInstance.is_a,
        DSet.insert, DSet.mem, hc]
  · simp [ReactiveRelationInstance.remove_component, ReactiveRelationInstance.is_a,
      DSet.remove, DSet.mem, List.mem_filter]
  · by_cases hc : c ∈ q.components <;>
      simp [ReactiveRelationInstance.add_component, DSet.insert, hc]
  · simp only [ReactiveRelationInstance.is_a, DSet.mem] at h
    have hc : c ∉ q.components := by simpa using h
    show q.components.filter (fun y => y ≠ c) = q.components
    refine List.filter_eq_self.mpr (fun y hy => ?_)
    simp only [ne_eq, decide_not, Bool.not_eq_eq_eq_not, Bool.not_true,
      decide_eq_false_iff_not]
    exact fun hyc => hc (hyc ▸ hy)

/-- C8 witness: the component operations evaluated on a concrete
instance. -/
theorem C8_component_set_ops_witness :
    (({ outbound := ⟨1⟩, type_name := "knows", inbound := ⟨2⟩, description := ""
        properties := [], components := [], behaviours := [] } :
        ReactiveRelationInstance).add_component "c").is_a "c" = true ∧
    (({ outbound := ⟨1⟩, type_name := "knows", inbound := ⟨2⟩, description := ""
        properties := [], components := [], behaviours := [] } :
        ReactiveRelationInstance).remove_component "c").components = [] := by
  have h := C8_component_set_ops
    { outbound := ⟨1⟩, type_name := "knows", inbound := ⟨2⟩, description := ""
      properties := [], components := [], behaviours := [] } "c"
  exact ⟨h.1, h.2.2.2 rfl⟩

/-- C2: writing an absent property on the snapshot instance fails fatally
(modelled as `none`), while on the reactive instance `set` and
`set_no_propagate` are silent no-ops leaving the instance entirely
unchanged; when the property is present, the write updates its value on
both representations. -/
theorem C2_setter_absent_asymmetry (r : RelationInstance)
    (q : ReactiveRelationInstance) (name : String) (v : Value) :
    (r.properties.lookup name = none → r.set name v = none) ∧
    (∀ w, r.properties.lookup name = some w →
      ∃ r', r.set name v = some r' ∧
        r'.properties.lookup name = some v ∧
        (∀ k, k ≠ name → r'.properties.lookup k = r.properties.lookup k) ∧
        r'.outbound_id = r.outbound_id ∧ r'.type_name = r.type_name ∧
        r'.inbound_id = r.inbound_id ∧ r'.description = r.description) ∧
    (q.properties.lookup name = none →
      q.set name v = q ∧ q.set_no_propagate name v = q) ∧
    (∀ c, q.properties.lookup name = some c →
      ((q.set name v).properties.lookup name).map ReactivePropertyInstance.get =
        some v ∧
      ((q.set_no_propagate name v).properties.lookup name).map
        ReactivePropertyInstance.get = some v) := by
  refine ⟨fun h => ?_, fun w hw => ?_, fun h => ?_, fun c hc => ?_⟩
  · simp [RelationInstance.set, h]
  · refine ⟨{ r with properties := r.properties.insert name v }, ?_, ?_, ?_,
      rfl, rfl, rfl, rfl⟩
    · simp [RelationInstance.set, hw]
    · simp [Map.lookup_insert]
    · intro k hk
      rw [Map.lookup_insert]
      have hne : ¬ name = k := fun h' => hk h'.symm
      simp [hne]
  · constructor
    · simp [ReactiveRelationInstance.set, h]
    · simp [ReactiveRelationInstance.set_no_propagate, h]
  · constructor
    · simp [ReactiveRelationInstance.set, hc, Map.lookup_insert,
        ReactivePropertyInstance.set, ReactivePropertyInstance.get]
    · simp [ReactiveRelationInstance.set_no_propagate, hc, Map.lookup_insert,
        ReactivePropertyInstance.set_no_propagate, ReactivePropertyInstance.get]

/-- C2 witness: the snapshot setter panics on an absent property while the
reactive setter leaves the instance unchanged, evaluated concretely. -/
theorem C2_setter_absent_asymmetry_witness :
    (RelationInstance.new 1 "knows" 2 []).set "missing" Value.null = none ∧
    ({ outbound := ⟨1⟩, type_name := "knows", inbound := ⟨2⟩, description := ""
       properties := [], components := [], behaviours := [] } :
        ReactiveRelationInstance).set "missing" Value.null =
      { outbound := ⟨1⟩, type_name := "knows", inbound := ⟨2⟩, description := ""
        properties := [], components := [], behaviours := [] } := by
  have h := C2_setter_absent_asymmetry (RelationInstance.new 1 "knows" 2 [])
    { outbound := ⟨1⟩, type_name := "knows", inbound := ⟨2⟩, description := ""
      properties := [], components := [], behaviours := [] } "missing" Value.null
  exact ⟨h.1 rfl, (h.2.2.1 rfl).1⟩

/-- C5: all three reactive construction paths wrap every input property in
a newly minted cell keyed by the property's name and holding its value,
with pairwise-distinct freshly drawn identities, and leave the component
and behaviour sets empty. -/
theorem C5_construction_paths_invariant (outb inb : ReactiveEntityInstance)
    (ep : EdgeProperties) (inst : RelationInstance) (tn : String)
    (pm : Map Value) (n : Nat) :
    (∀ k, (((ReactiveRelationInstance.from_properties outb inb ep n).1.properties.lookup
        k).map ReactivePropertyInstance.get) =
        (Map.collect (ep.props.map (fun np => (np.name, np.value)))).lookup k) ∧
    (∀ k c, (ReactiveRelationInstance.from_properties outb inb ep n).1.properties.lookup
        k = some c → c.name = k) ∧
    (((ReactiveRelationInstance.from_properties outb inb ep n).1.properties.map
        (fun p => p.2.id)).Nodup ∧
      ∀ p ∈ (ReactiveRelationInstance.from_properties outb inb ep n).1.properties,
        n ≤ p.2.id) ∧
    (ReactiveRelationInstance.from_properties outb inb ep n).1.components = [] ∧
    (ReactiveRelationInstance.from_properties outb inb ep n).1.behaviours = [] ∧
    (∀ k, (((ReactiveRelationInstance.from_instance outb inb inst n).1.properties.lookup
        k).map ReactivePropertyInstance.get) =
        (Map.collect inst.properties).lookup k) ∧
    (∀ k c, (ReactiveRelationInstance.from_instance outb inb inst n).1.properties.lookup
        k = some c → c.name = k) ∧
    (((ReactiveRelationInstance.from_instance outb inb inst n).1.properties.map
        (fun p => p.2.id)).Nodup ∧
      ∀ p ∈ (ReactiveRelationInstance.from_instance outb inb inst n).1.properties,
        n ≤ p.2.id) ∧
    (ReactiveRelationInstance.from_instance outb inb inst n).1.components = [] ∧
    (ReactiveRelationInstance.from_instance outb inb inst n).1.behaviours = [] ∧
    (∀ k, (((ReactiveRelationInstance.create_with_properties outb tn inb pm
        n).1.properties.lookup k).map ReactivePropertyInstance.get) =
        (Map.collect pm).lookup k) ∧
    (∀ k c, (ReactiveRelationInstance.create_with_properties outb tn inb pm
        n).1.properties.lookup k = some c → c.name = k) ∧
    (((ReactiveRelationInstance.create_with_properties outb tn inb pm
        n).1.properties.map (fun p => p.2.id)).Nodup ∧
      ∀ p ∈ (ReactiveRelationInstance.create_with_properties outb tn inb pm
        n).1.properties, n ≤ p.2.id) ∧
    (ReactiveRelationInstance.create_with_properties outb tn inb pm
      n).1.components = [] ∧
    (ReactiveRelationInstance.create_with_properties outb tn inb pm
      n).1.behaviours = [] := by
  have ids₁ := buildCells_ids (ep.props.map (fun np => (np.name, np.value))) n
  have ids₂ := buildCells_ids inst.properties n
  have ids₃ := buildCells_ids pm n
  refine ⟨fun k => buildCells_lookup_value _ n k,
    fun k c hc => buildCellsAux_name _ [] n (fun k' c' h' => by cases h') k c hc,
    ⟨ids₁.2.2, fun p hp => (ids₁.2.1 p hp).1⟩, rfl, rfl,
    fun k => buildCells_lookup_value _ n k,
    fun k c hc => buildCellsAux_name _ [] n (fun k' c' h' => by cases h') k c hc,
    ⟨ids₂.2.2, fun p hp => (ids₂.2.1 p hp).1⟩, rfl, rfl,
    fun k => buildCells_lookup_value _ n k,
    fun k c hc => buildCellsAux_name _ [] n (fun k' c' h' => by cases h') k c hc,
    ⟨ids₃.2.2, fun p hp => (ids₃.2.1 p hp).1⟩, rfl, rfl⟩

/-- C5 witness: the invariant evaluated on a concrete input for each of the
three construction paths. -/
theorem C5_construction_paths_invariant_witness :
    ((ReactiveRelationInstance.from_properties ⟨1⟩ ⟨2⟩
        ⟨⟨⟨1, ⟨"knows"⟩, 2⟩⟩, [⟨"a", Value.num 3⟩]⟩ 0).1.properties.lookup
          "a").map ReactivePropertyInstance.get = some (Value.num 3) ∧
    ((ReactiveRelationInstance.from_instance ⟨1⟩ ⟨2⟩
        (RelationInstance.new 1 "knows" 2 [("b", Value.num 4)]) 0).1.properties.lookup
          "b").map ReactivePropertyInstance.get = some (Value.num 4) ∧
    ((ReactiveRelationInstance.create_with_properties ⟨1⟩ "knows" ⟨2⟩
        [("c", Value.num 5)] 0).1.properties.lookup
          "c").map ReactivePropertyInstance.get = some (Value.num 5) ∧
    (ReactiveRelationInstance.from_properties ⟨1⟩ ⟨2⟩
        ⟨⟨⟨1, ⟨"knows"⟩, 2⟩⟩, [⟨"a", Value.num 3⟩]⟩ 0).1.components = [] := by
  have h := C5_construction_paths_invariant ⟨1⟩ ⟨2⟩
    ⟨⟨⟨1, ⟨"knows"⟩, 2⟩⟩, [⟨"a", Value.num 3⟩]⟩
    (RelationInstance.new 1 "knows" 2 [("b", Value.num 4)]) "knows"
    [("c", Value.num 5)] 0
  exact ⟨h.1 "a", h.2.2.2.2.2.1 "b", h.2.2.2.2.2.2.2.2.2.2.1 "c", h.2.2.2.1⟩

/-- C6: `EntityType::new` and `RelationType::new` fail fatally exactly when
the name does not parse as a graph identifier; for a valid name the
constructed type's `name`/`type_name` is the given name and the stored
identifier is the one derived from the name alone. -/
theorem C6_type_construction (name group₀ descr ot it : String)
    (comps : List String) (props : List PropertyType) (exts : List Extension) :
    (Identifier.parse name = none →
      EntityType.new name group₀ descr comps props exts = none ∧
      RelationType.new ot name it group₀ descr comps props exts = none) ∧
    (∀ t, Identifier.parse name = some t →
      (∃ et, EntityType.new name group₀ descr comps props exts = some et ∧
        et.name = name ∧ et.t = t) ∧
      (∃ rt, RelationType.new ot name it group₀ descr comps props exts = some rt ∧
        rt.type_name = name ∧ rt.t = t)) := by
  constructor
  · intro h
    constructor
    · simp [EntityType.new, h]
    · simp [RelationType.new, h]
  · intro t ht
    constructor
    · exact ⟨{ name := name, group := group₀, description := descr
               components := comps, properties := props, extensions := exts
               t := t },
             by simp [EntityType.new, ht], rfl, rfl⟩
    · exact ⟨{ outbound_type := ot, type_name := name, full_name := name
               inbound_type := it, group := group₀, description := descr
               components := comps, properties := props, extensions := exts
               t := t },
             by simp [RelationType.new, ht], rfl, rfl⟩

/-- C6 witness: construction evaluated at a valid and at an invalid name. -/
theorem C6_type_construction_witness :
    EntityType.new "not valid!" "" "" [] [] [] = none ∧
    (∃ et, EntityType.new "player" "" "" [] [] [] = some et ∧
      et.name = "player" ∧ et.t = ⟨"player"⟩) := by
  refine ⟨((C6_type_construction "not valid!" "" "" "" "" [] [] []).1
      (by decide)).1, ?_⟩
  exact ((C6_type_construction "player" "" "" "" "" [] [] []).2
    ⟨"player"⟩ (by decide)).1

/-- C7: `add_property` is a no-op when a property of that name already
exists (first writer wins), and otherwise inserts exactly one new cell with
a freshly drawn identity under that name holding the given value, leaving
every other entry and every other field unchanged. -/
theorem C7_add_property (q : ReactiveRelationInstance) (name : String)
    (v : Value) (n : Nat) :
    ((q.properties.lookup name).isSome → q.add_property name v n = (q, n)) ∧
    (q.properties.lookup name = none →
      (q.add_property name v n).2 = n + 1 ∧
      (q.add_property name v n).1.properties.lookup name =
        some (ReactivePropertyInstance.new n name v) ∧
      (∀ k, k ≠ name →
        (q.add_property name v n).1.properties.lookup k =
          q.properties.lookup k) ∧
      (q.add_property name v n).1.properties.length = q.properties.length + 1 ∧
      (q.add_property name v n).1.outbound = q.outbound ∧
      (q.add_property name v n).1.type_name = q.type_name ∧
      (q.add_property name v n).1.inbound = q.inbound ∧
      (q.add_property name v n).1.components = q.components ∧
      (q.add_property name v n).1.behaviours = q.behaviours) := by
  constructor
  · intro h
    simp [ReactiveRelationInstance.add_property, h]
  · intro h
    refine ⟨?_, ?_, ?_, ?_, ?_, ?_, ?_, ?_, ?_⟩ <;>
      simp only [ReactiveRelationInstance.add_property, h, Option.isSome_none,
        Bool.false_eq_true, if_false]
    · simp [Map.lookup_insert]
    · intro k hk
      rw [Map.lookup_insert]
      have hne : ¬ name = k := fun h' => hk h'.symm
      simp [hne]
    · exact Map.length_insert_of_absent _ _ _ h

/-- C7 witness: `add_property` evaluated on an absent name. -/
theorem C7_add_property_witness :
    (({ outbound := ⟨1⟩, type_name := "knows", inbound := ⟨2⟩, description := ""
        properties := [], components := [], behaviours := [] } :
        ReactiveRelationInstance).add_property "p" (Value.num 7)
          5).1.properties.lookup "p" =
      some (ReactivePropertyInstance.new 5 "p" (Value.num 7)) := by
  exact ((C7_add_property
    { outbound := ⟨1⟩, type_name := "knows", inbound := ⟨2⟩, description := ""
      properties := [], components := [], behaviours := [] } "p" (Value.num 7)
    5).2 rfl).2.1

/-- C10: for every successful construction, `RelationType::new` stores
`full_name` as a copy of `type_name`, so the two fields are identical after
construction. -/
theorem C10_full_name_eq_type_name (ot tn it group₀ descr : String)
    (comps : List String) (props : List PropertyType) (exts : List Extension) :
    ∀ rt, RelationType.new ot tn it group₀ descr comps props exts = some rt →
      rt.full_name = rt.type_name := by
  intro rt h
  cases hp : Identifier.parse tn with
  | none => simp [RelationType.new, hp] at h
  | some t =>
      simp only [RelationType.new, hp] at h
      cases h
      rfl

/-- C10 witness: a concrete construction with equal `full_name` and
`type_name`. -/
theorem C10_full_name_eq_type_name_witness :
    ∃ rt, RelationType.new "player" "knows" "camera" "" "" [] [] [] = some rt ∧
      rt.full_name = rt.type_name := by
  refine ⟨{ outbound_type := "player", type_name := "knows", full_name := "knows"
            inbound_type := "camera", group := "", description := ""
            components := [], properties := [], extensions := []
            t := ⟨"knows"⟩ }, rfl, ?_⟩
  exact C10_full_name_eq_type_name "player" "knows" "camera" "" "" [] [] [] _ rfl

/-! ### Lemmas about structured decoding -/

/-- The visitor step treats the `"type"` alias exactly like `"type_name"`. -/
theorem decodeStep_type_alias (v : Value) (st : DecodeState) :
    decodeStep "type" v st = decodeStep "type_name" v st := rfl

/-- Swapping the `"type"` spelling for `"type_name"` anywhere in the input
leaves the visitor's result unchanged. -/
theorem decodeFields_type_alias (post : List (String × Value)) (v : Value) :
    ∀ (pre : List (String × Value)) (st : DecodeState),
    decodeFields (pre ++ ("type", v) :: post) st =
      decodeFields (pre ++ ("type_name", v) :: post) st := by
  intro pre
  induction pre with
  | nil =>
      intro st
      show (match decodeStep "type" v st with
            | none => none
            | some st' => decodeFields post st') =
        (match decodeStep "type_name" v st with
            | none => none
            | some st' => decodeFields post st')
      rw [decodeStep_type_alias]
  | cons hd tl ih =>
      intro st
      obtain ⟨k₀, v₀⟩ := hd
      show (match decodeStep k₀ v₀ st with
            | none => none
            | some st' => decodeFields (tl ++ ("type", v) :: post) st') =
        (match decodeStep k₀ v₀ st with
            | none => none
            | some st' => decodeFields (tl ++ ("type_name", v) :: post) st')
      cases decodeStep k₀ v₀ st with
      | none => rfl
      | some st' => exact ih st'

/-- A visitor step for any key other than `"description"` leaves the
description field of the state untouched. -/
theorem decodeStep_preserves_description (k : String) (v : Value)
    (st st' : DecodeState) (hk : k ≠ "description")
    (h : decodeStep k v st = some st') : st'.description = st.description := by
  unfold decodeStep at h
  split_ifs at h <;>
    first
      | exact absurd ‹k = "description"› hk
      | (repeat' split at h) <;>
        first
          | exact Option.noConfusion h
          | (injection h with h₂; subst h₂; rfl)

/-- A visitor step for any key other than `"properties"` leaves the
properties field of the state untouched. -/
theorem decodeStep_preserves_properties (k : String) (v : Value)
    (st st' : DecodeState) (hk : k ≠ "properties")
    (h : decodeStep k v st = some st') : st'.properties = st.properties := by
  unfold decodeStep at h
  split_ifs at h <;>
    first
      | exact absurd ‹k = "properties"› hk
      | (repeat' split at h) <;>
        first
          | exact Option.noConfusion h
          | (injection h with h₂; subst h₂; rfl)

theorem decodeFields_preserves_description :
    ∀ (l : List (String × Value)) (st st' : DecodeState),
    decodeFields l st = some st' → "description" ∉ l.map Prod.fst →
    st'.description = st.description := by
  intro l
  induction l with
  | nil =>
      intro st st' h _
      injection h with h₂
      subst h₂; rfl
  | cons hd tl ih =>
      intro st st' h hmem
      obtain ⟨k₀, v₀⟩ := hd
      simp only [List.map, List.mem_cons, not_or] at hmem
      rw [show decodeFields ((k₀, v₀) :: tl) st =
        (match decodeStep k₀ v₀ st with
         | none => none
         | some st₁ => decodeFields tl st₁) from rfl] at h
      cases hds : decodeStep k₀ v₀ st with
      | none => rw [hds] at h; exact Option.noConfusion h
      | some st₁ =>
          rw [hds] at h
          rw [ih st₁ st' h hmem.2]
          exact decodeStep_preserves_description k₀ v₀ st st₁
            (fun he => hmem.1 he.symm) hds

theorem decodeFields_preserves_properties :
    ∀ (l : List (String × Value)) (st st' : DecodeState),
    decodeFields l st = some st' → "properties" ∉ l.map Prod.fst →
    st'.properties = st.properties := by
  intro l
  induction l with
  | nil =>
      intro st st' h _
      injection h with h₂
      subst h₂; rfl
  | cons hd tl ih =>
      intro st st' h hmem
      obtain ⟨k₀, v₀⟩ := hd
      simp only [List.map, List.mem_cons, not_or] at hmem
      rw [show decodeFields ((k₀, v₀) :: tl) st =
        (match decodeStep k₀ v₀ st with
         | none => none
         | some st₁ => decodeFields tl st₁) from rfl] at h
      cases hds : decodeStep k₀ v₀ st with
      | none => rw [hds] at h; exact Option.noConfusion h
      | some st₁ =>
          rw [hds] at h
          rw [ih st₁ st' h hmem.2]
          exact decodeStep_preserves_properties k₀ v₀ st st₁
            (fun he => hmem.1 he.symm) hds

/-- C9: structured decoding of a `RelationInstance` accepts `"type"` and
`"type_name"` interchangeably for the type-name field with identical
results, decodes an absent `description` to the empty string, and decodes
absent `properties` to the empty mapping. -/
theorem C9_decode_field_tolerances (pre post l : List (String × Value))
    (v : Value) (r : RelationInstance) :
    (RelationInstance.decode (pre ++ ("type", v) :: post) =
      RelationInstance.decode (pre ++ ("type_name", v) :: post)) ∧
    (RelationInstance.decode l = some r → "description" ∉ l.map Prod.fst →
      r.description = "") ∧
    (RelationInstance.decode l = some r → "properties" ∉ l.map Prod.fst →
      r.properties = []) := by
  refine ⟨?_, ?_, ?_⟩
  · unfold RelationInstance.decode
    rw [decodeFields_type_alias post v pre DecodeState.init]
  · intro h hmem
    rcases hdf : decodeFields l DecodeState.init with _ | st
    · rw [RelationInstance.decode, hdf] at h
      exact Option.noConfusion h
    · have hdesc := decodeFields_preserves_description l _ _ hdf hmem
      rw [RelationInstance.decode, hdf] at h
      obtain ⟨o, tn, i, d, p⟩ := st
      simp only [DecodeState.init] at hdesc
      cases o <;> cases tn <;> cases i <;>
        first
          | exact Option.noConfusion h
          | (injection h with h₂
             rw [← h₂]
             simp only [hdesc, Option.getD_none])
  · intro h hmem
    rcases hdf : decodeFields l DecodeState.init with _ | st
    · rw [RelationInstance.decode, hdf] at h
      exact Option.noConfusion h
    · have hprop := decodeFields_preserves_properties l _ _ hdf hmem
      rw [RelationInstance.decode, hdf] at h
      obtain ⟨o, tn, i, d, p⟩ := st
      simp only [DecodeState.init] at hprop
      cases o <;> cases tn <;> cases i <;>
        first
          | exact Option.noConfusion h
          | (injection h with h₂
             rw [← h₂]
             simp only [hprop, Option.getD_none])

/-- C9 witness: decoding a concrete object through both type-name
spellings, with the description and properties defaults evaluated. -/
theorem C9_decode_field_tolerances_witness :
    RelationInstance.decode
        [("outbound_id", Value.str "1"), ("type", Value.str "knows"),
         ("inbound_id", Value.str "2")] =
      RelationInstance.decode
        [("outbound_id", Value.str "1"), ("type_name", Value.str "knows"),
         ("inbound_id", Value.str "2")] ∧
    (RelationInstance.new 1 "knows" 2 []).description = "" ∧
    (RelationInstance.new 1 "knows" 2 []).properties = [] := by
  have h := C9_decode_field_tolerances
    [("outbound_id", Value.str "1")] [("inbound_id", Value.str "2")]
    [("outbound_id", Value.str "1"), ("type", Value.str "knows"),
     ("inbound_id", Value.str "2")]
    (Value.str "knows") (RelationInstance.new 1 "knows" 2 [])
  exact ⟨h.1, h.2.1 rfl (by decide), h.2.2 rfl (by decide)⟩

end Inexor
